import Mathlib

/-!
Shallow embedding of the connection-agent pooling and redirect-following
request pipeline of the `@foundriesio/request` library.

The embedded code is the most recent revision found in the repository:
  * `lib/agent` (the sha256 variant: `optionsToHash`, `getOrCreateHTTPAgent`,
    `getOrCreateHTTPSAgent`, `RequestAgent`, `setOptions`, `setAgentOptions`,
    `setHTTPOptions`, `update`, `create`),
  * `index.js` (the async variant: `handleResponse` and the `_inner`
    redirect-following loop of `get`),
  * `lib/checks.js`, `lib/response.js` and `lib/errors.js` (the `headers`
    accessor property).

Conventions for the embedding:
  * JavaScript primitive values that flow through option objects are an
    inductive `JSVal`; JS numbers are rationals (no claim here depends on
    floating-point rounding) and `NaN` is a separate constructor.
  * Mutable objects become explicit state passed in and out of functions;
    the process-wide `AGENTS` map becomes an `AgentPool` value threaded
    through the calls, and object reference identity of a created
    `http(s).Agent` is a numeric id allocated by the pool.
  * `crypto.createHash('sha256') ... digest('hex')` is a deterministic
    function of the string fed to `hash.update`; the embedding represents
    the digest by that input string, which preserves the equalities the
    development reasons about (equal inputs give equal digests).
-/

namespace RP

/-- JavaScript primitive values as they appear in caller-supplied option
objects. `num` carries a rational; `nan` models `NaN`; `obj` models a plain
object literal (constructor `Object`) and `arr` an (empty) array, which is
all the header-setter claims need of them. -/
inductive JSVal where
  | undefined
  | null
  | bool (b : Bool)
  | num (q : ℚ)
  | nan
  | str (s : String)
  | obj
  | arr
deriving DecidableEq, Repr

/-- `lib/checks.js` `isNull`: `val === undefined || val === null`. -/
def isNull (v : JSVal) : Bool :=
  match v with
  | .undefined => true
  | .null => true
  | _ => false

/-- JS `val != null` (loose inequality against null), used by
`setOptions` for `options.followRedirects`. -/
def looseNotNull (v : JSVal) : Bool := !isNull v

/-- JS `val.constructor === Object`: true exactly for plain objects. -/
def constructorIsObject (v : JSVal) : Bool :=
  match v with
  | .obj => true
  | _ => false

/-- JS `Boolean(v)` (truthiness). -/
def toBoolean (v : JSVal) : Bool :=
  match v with
  | .undefined => false
  | .null => false
  | .bool b => b
  | .num q => q ≠ 0
  | .nan => false
  | .str s => s ≠ ""
  | .obj => true
  | .arr => true

/-- `parseInt(s, 10)` / `Number(s)` of a canonical port string: a digit
string gives its value, anything else (in particular `""`) is `NaN`. -/
def digitsToNat? (cs : List Char) : Option Nat :=
  if cs = [] then none
  else if cs.all (fun c => c.isDigit) then
    some (cs.foldl (fun n c => n * 10 + (c.toNat - 48)) 0)
  else none

/-- JS `Number(v)` coercion; `none` models `NaN`. Per ECMA-262:
`Number(undefined) = NaN`, `Number(null) = 0`, booleans map to 1/0,
`Number({}) = NaN`, and `Number([]) = 0` (`arr` models the empty array).
String-to-number parsing is only needed on numeric literals in this
development; a decimal digit string parses to its value, anything else
that is not a digit string is `NaN` after trimming (`""` is 0). -/
def toNumber (v : JSVal) : Option ℚ :=
  match v with
  | .undefined => none
  | .null => some 0
  | .bool b => some (if b then 1 else 0)
  | .num q => some q
  | .nan => none
  | .str s =>
      if s = "" then some 0
      else match digitsToNat? s.data with
           | some n => some n
           | none => none
  | .obj => none
  | .arr => some 0

/-- JS template-literal stringification `${v}` of a primitive. JS number
formatting is modelled only as far as integers (the only numbers this
development ever stringifies). -/
def jsValToString (v : JSVal) : String :=
  match v with
  | .undefined => "undefined"
  | .null => "null"
  | .bool b => if b then "true" else "false"
  | .num q => if q.den = 1 then toString q.num else toString q
  | .nan => "NaN"
  | .str s => s
  | .obj => "[object Object]"
  | .arr => ""

/-- `${x}` where `x` is a possibly-absent string property: an absent
property reads as `undefined` and stringifies to `"undefined"`. -/
def jsStrOpt (v : Option String) : String :=
  match v with
  | none => "undefined"
  | some s => s

/-- `${x}` for a possibly-absent numeric property. -/
def jsNatOpt (v : Option Nat) : String :=
  match v with
  | none => "undefined"
  | some n => toString n

/-! ## The path normalizer

`lib/agent`:
```js
function normalize(path) {
    return path.replace(/\/{2,}/g, '/');
}
```
The global regex replaces every maximal run of two or more `'/'` by a
single `'/'` and leaves single slashes and all other characters alone;
as a string function this collapses every maximal run of slashes to one
slash. `dropSlashes`/`collapse` implement exactly that on the character
list of the string. -/

/-- Drop the leading run of `'/'` characters. -/
def dropSlashes : List Char → List Char
  | [] => []
  | c :: rest => if c = '/' then dropSlashes rest else c :: rest

theorem dropSlashes_length_le (l : List Char) : (dropSlashes l).length ≤ l.length := by
  induction l with
  | nil => simp [dropSlashes]
  | cons c rest ih =>
      by_cases h : c = '/'
      · simp [dropSlashes, h]
        exact Nat.le_succ_of_le ih
      · simp [dropSlashes, h]

/-- Collapse every maximal run of slashes to a single slash. -/
def collapse : List Char → List Char
  | [] => []
  | c :: rest =>
      if c = '/' then '/' :: collapse (dropSlashes rest)
      else c :: collapse rest
termination_by l => l.length
decreasing_by
  · exact Nat.lt_succ_of_le (dropSlashes_length_le rest)
  · simp

/-- `normalize` from `lib/agent`, on strings. -/
def normalize (s : String) : String := String.mk (collapse s.data)

/-- Specification-side rendering of the claim "replaces every maximal run
of 2 or more consecutive `'/'` characters by a single `'/'` and leaves
every character outside such runs unchanged": delete each `'/'` that is
immediately followed by another `'/'` (so of every run only the last
slash survives) and keep everything else. -/
def collapseSpec : List Char → List Char
  | [] => []
  | [c] => [c]
  | a :: b :: t =>
      if a = '/' ∧ b = '/' then collapseSpec (b :: t)
      else a :: collapseSpec (b :: t)

/-! ## URL values

`url.URL` objects as the agent module consumes them: `protocol` keeps the
trailing colon (`"https:"`), `port` is a string and `""` when the URL has
no explicit (or the scheme-default) port, `pathname` starts with `'/'`,
and `search` is `""` or starts with `'?'`. -/

structure URLRec where
  protocol : String
  hostname : String
  port : String := ""
  pathname : String := "/"
  search : String := ""
deriving DecidableEq, Repr

/-- `s.startsWith(pre)`, over the character lists (the core
`String.startsWith` does not reduce in the kernel). -/
def strStartsWith (s pre : String) : Bool := pre.data.isPrefixOf s.data

/-- `s.toLowerCase()` (the strings involved are ASCII). -/
def toLowerStr (s : String) : String := String.mk (s.data.map Char.toLower)

/-- Split a character list at the first occurrence of `pat`, returning
the parts before and after the occurrence. -/
def splitAtSub (pat : List Char) : List Char → Option (List Char × List Char)
  | [] => none
  | c :: t =>
      if pat.isPrefixOf (c :: t) then some ([], (c :: t).drop pat.length)
      else (splitAtSub pat t).map (fun p => (c :: p.1, p.2))

/-- Split a character list at the first `'/'` or `'?'` (start of path or
query), returning the host-port part and the remainder. -/
def splitHostTail : List Char → List Char × List Char
  | [] => ([], [])
  | c :: t =>
      if c = '/' ∨ c = '?' then ([], c :: t)
      else
        let (h, r) := splitHostTail t
        (c :: h, r)

/-- Split a character list at the first `':'`. -/
def splitColon : List Char → List Char × List Char
  | [] => ([], [])
  | c :: t =>
      if c = ':' then ([], t)
      else
        let (h, r) := splitColon t
        (c :: h, r)

/-- Split a character list at the first `'?'`, keeping the `'?'` with the
second component. -/
def splitQuery : List Char → List Char × List Char
  | [] => ([], [])
  | c :: t =>
      if c = '?' then ([], c :: t)
      else
        let (h, r) := splitQuery t
        (c :: h, r)

/-- `new url.URL(s)` for the plain absolute `http(s)` URLs this library
handles: `scheme://host[:port][/path][?query]`. Returns `none` when the
constructor would throw (no `://`, empty host, non-numeric or oversized
port). Scheme and host are lowercased and a scheme-default port reads
back as `""`, as in the WHATWG API; userinfo, fragments and
percent-encoding are not modelled (no input in this development uses
them). -/
def parseURL (s : String) : Option URLRec :=
  match splitAtSub "://".data s.data with
  | none => none
  | some (schemeCs, restCs) =>
      if schemeCs = [] then none
      else
        let scheme := toLowerStr (String.mk schemeCs)
        let (hostport, tail) := splitHostTail restCs
        let (hostCs, portCs) := splitColon hostport
        if hostCs = [] then none
        else
          let hostname := toLowerStr (String.mk hostCs)
          let portStr : Option String :=
            if portCs = [] then some ""
            else match digitsToNat? portCs with
                 | none => none
                 | some n =>
                     if n > 65535 then none
                     else if (scheme = "https" ∧ n = 443) ∨ (scheme = "http" ∧ n = 80)
                     then some ""
                     else some (toString n)
          match portStr with
          | none => none
          | some port =>
              let (pathname, search) :=
                match tail with
                | [] => ("/", "")
                | c :: _ =>
                    if c = '?' then ("/", String.mk tail)
                    else
                      let (p, q) := splitQuery tail
                      (String.mk p, String.mk q)
              some { protocol := scheme ++ ":", hostname := hostname,
                     port := port, pathname := pathname, search := search }

/-! ## The agent module (`lib/agent`, sha256 variant) -/

/-- The transport module a `RequestAgent` ends up bound to
(`this.http = http` or `this.http = https`). -/
inductive Transport where
  | http
  | https
deriving DecidableEq, Repr

/-- The value of `httpOptions.agent`: `false` (no pooling) or a reference
to a pooled `http(s).Agent`. Reference identity of a pooled agent is its
pool-allocated id. -/
inductive AgentVal where
  | noAgent
  | pooled (id : Nat)
deriving DecidableEq, Repr

/-- The `http.Agent` tuning options held in `this.agentOptions`.
Defaults are the `RequestAgent` constructor's; `secureProtocol` is absent
(no own property) until `setAgentOptions` copies one in. -/
structure AgentOptions where
  keepAlive : JSVal := .bool true
  keepAliveMsecs : JSVal := .num 1000
  maxFreeSockets : JSVal := .num 256
  maxSockets : JSVal := .num 2048
  rejectUnauthorized : JSVal := .bool true
  secureProtocol : Option JSVal := none
deriving DecidableEq, Repr

/-- `Object.entries(agentOptions)` in insertion order: the five
constructor-initialized keys, then `secureProtocol` if it was added. -/
def agentOptionsEntries (o : AgentOptions) : List (String × JSVal) :=
  [("keepAlive", o.keepAlive), ("keepAliveMsecs", o.keepAliveMsecs),
   ("maxFreeSockets", o.maxFreeSockets), ("maxSockets", o.maxSockets),
   ("rejectUnauthorized", o.rejectUnauthorized)] ++
  (match o.secureProtocol with
   | some v => [("secureProtocol", v)]
   | none => [])

/-- `this.httpOptions`: the `http.request` parameters. Fields the
constructor does not create (`hostname`, `host`, `port`, `path`,
`protocol`, `ca`) are `Option`s that start absent. Note the module sets
`hostname` but never `host`; `optionsToHash` reads `host`. -/
structure HttpOptions where
  method : String := "GET"
  agent : AgentVal := .noAgent
  headers : List (String × String) := [("Accept-Encoding", "gzip, deflate, identity")]
  hostname : Option String := none
  host : Option String := none
  port : Option Nat := none
  path : Option String := none
  protocol : Option String := none
  ca : Option String := none
deriving DecidableEq, Repr

/-- The process-wide `AGENTS` cache: pool key → agent id, plus the next
fresh id (`new http(s).Agent` allocates a new object identity). -/
structure AgentPool where
  entries : List (String × Nat) := []
  nextId : Nat := 0
deriving DecidableEq, Repr

/-- `toHashStr(accumulator, [key, value])` — the reducer used (and whose
result is then discarded) by `optionsToHash`. -/
def toHashStr (accumulator : String) (kv : String × JSVal) : String :=
  accumulator ++ kv.1 ++ jsValToString kv.2

/--
```js
function optionsToHash(options, httpOptions, protocol = 'http') {
    let toHash;
    const hash = crypto.createHash('sha256');
    toHash = `${protocol}${httpOptions.host}:${httpOptions.port}-`;
    Object.entries(options).reduce(toHashStr, toHash);
    hash.update(toHash);
    return hash.digest('hex');
}
```
The `reduce` builds a longer string but its return value is never
captured (JS strings are immutable, so `toHash` is unchanged); only the
prefix string reaches `hash.update`. The sha256 hex digest is a
deterministic function of that string and is represented by it. -/
def optionsToHash (options : AgentOptions) (httpOptions : HttpOptions)
    (protocol : String := "http") : String :=
  let toHash := protocol ++ jsStrOpt httpOptions.host ++ ":" ++ jsNatOpt httpOptions.port ++ "-"
  let _ := (agentOptionsEntries options).foldl toHashStr toHash
  toHash

/-- `getOrCreateHTTPAgent`: look the key up in `AGENTS`, creating and
storing a fresh `http.Agent` when absent. -/
def getOrCreateHTTPAgent (agentOptions : AgentOptions) (httpOptions : HttpOptions)
    (pool : AgentPool) : AgentVal × AgentPool :=
  let key := optionsToHash agentOptions httpOptions
  match pool.entries.lookup key with
  | some id => (.pooled id, pool)
  | none =>
      (.pooled pool.nextId,
       { entries := pool.entries ++ [(key, pool.nextId)], nextId := pool.nextId + 1 })

/-- `getOrCreateHTTPSAgent`: as above with the `'https'` protocol tag. -/
def getOrCreateHTTPSAgent (agentOptions : AgentOptions) (httpOptions : HttpOptions)
    (pool : AgentPool) : AgentVal × AgentPool :=
  let key := optionsToHash agentOptions httpOptions "https"
  match pool.entries.lookup key with
  | some id => (.pooled id, pool)
  | none =>
      (.pooled pool.nextId,
       { entries := pool.entries ++ [(key, pool.nextId)], nextId := pool.nextId + 1 })

/-- `class RequestAgent` with its constructor defaults. -/
structure RequestAgent where
  http : Option Transport := none
  httpOptions : HttpOptions := {}
  agentOptions : AgentOptions := {}
  followRedirects : Bool := true
  maxRedirects : ℚ := 5
  newAgent : Bool := false
deriving DecidableEq, Repr

/-- `MAX_REDIRECTS = 15`. -/
def MAX_REDIRECTS : ℚ := 15

/--
```js
RequestAgent.prototype.setOptions = function(options = {}) {
    let maxRedirects;
    this.newAgent = Boolean(options.newAgent);
    if (options.followRedirects != null) {
        this.followRedirects = Boolean(options.followRedirects);
    }
    maxRedirects = Number(options.maxRedirects);
    if (!isNaN(maxRedirects)) {
        if (maxRedirects >= MAX_REDIRECTS) {
            this.maxRedirects = MAX_REDIRECTS;
        } else {
            this.maxRedirects = maxRedirects;
        }
    }
    return this;
};
``` -/
structure Options where
  method : Option String := none
  headers : Option (List (String × String)) := none
  ca : Option String := none
  newAgent : JSVal := .undefined
  followRedirects : JSVal := .undefined
  maxRedirects : JSVal := .undefined
  keepAlive : Option JSVal := none
  keepAliveMsecs : Option JSVal := none
  maxSockets : Option JSVal := none
  maxFreeSockets : Option JSVal := none
  rejectUnauthorized : Option JSVal := none
  secureProtocol : Option JSVal := none
deriving DecidableEq, Repr

def setOptions (a : RequestAgent) (options : Options) : RequestAgent :=
  let a := { a with newAgent := toBoolean options.newAgent }
  let a :=
    if looseNotNull options.followRedirects then
      { a with followRedirects := toBoolean options.followRedirects }
    else a
  match toNumber options.maxRedirects with
  | none => a
  | some maxRedirects =>
      if maxRedirects ≥ MAX_REDIRECTS then { a with maxRedirects := MAX_REDIRECTS }
      else { a with maxRedirects := maxRedirects }

/-- `setAgentOptions`: for each key of `VALID_AGENT_OPTS`, copy
`options[key]` into `this.agentOptions` when `options` has that own
property (this variant copies without casting). -/
def setAgentOptions (a : RequestAgent) (options : Options) : RequestAgent :=
  let o := a.agentOptions
  let o := match options.keepAlive with
           | some v => { o with keepAlive := v }
           | none => o
  let o := match options.keepAliveMsecs with
           | some v => { o with keepAliveMsecs := v }
           | none => o
  let o := match options.maxSockets with
           | some v => { o with maxSockets := v }
           | none => o
  let o := match options.maxFreeSockets with
           | some v => { o with maxFreeSockets := v }
           | none => o
  let o := match options.rejectUnauthorized with
           | some v => { o with rejectUnauthorized := v }
           | none => o
  let o := match options.secureProtocol with
           | some v => { o with secureProtocol := some v }
           | none => o
  { a with agentOptions := o }

/-- `Object.assign(target, extra)` on header maps: existing keys are
overwritten in place, new keys appended. -/
def assignHeaders (base extra : List (String × String)) : List (String × String) :=
  extra.foldl
    (fun acc kv =>
      if acc.any (fun p => p.1 = kv.1) then
        acc.map (fun p => if p.1 = kv.1 then (p.1, kv.2) else p)
      else acc ++ [kv])
    base

/-- Errors `create`/`setHTTPOptions` can throw: `RequestAgentError` for a
non-object options argument or an unsupported protocol, and the
`url.URL` constructor's `TypeError` for an unparsable URI. -/
inductive AgentError where
  | invalidOptions
  | unsupportedProtocol
  | malformedURL
deriving DecidableEq, Repr

/--
```js
RequestAgent.prototype.setHTTPOptions = function (uri, options = {}) {
    let port;
    const reqURL = new url.URL(uri);
    port = parseInt(reqURL.port, 10);
    port = isNaN(port) ? null : port;
    this.httpOptions.hostname = reqURL.hostname;
    this.httpOptions.path = normalize(`${reqURL.pathname}${reqURL.search}`);
    this.httpOptions.port = port;
    this.httpOptions.protocol = reqURL.protocol;
    if (port == null) { ... default 443/80 ... }
    if (options.method) { this.httpOptions.method = options.method; }
    if (options.headers) { Object.assign(this.httpOptions.headers, options.headers); }
    if (options.ca) { this.httpOptions.ca = options.ca; }
    return this;
};
```
`parseInt` of the URL's canonical port string: `""` gives `NaN` (hence
`null`), a digit string gives its value. -/
def setHTTPOptions (a : RequestAgent) (uri : String) (options : Options) :
    Except AgentError RequestAgent :=
  match parseURL uri with
  | none => .error .malformedURL
  | some reqURL =>
      let port : Option Nat := if reqURL.port = "" then none else digitsToNat? reqURL.port.data
      let ho := a.httpOptions
      let ho := { ho with
        hostname := some reqURL.hostname,
        path := some (normalize (reqURL.pathname ++ reqURL.search)),
        port := port,
        protocol := some reqURL.protocol }
      let ho :=
        if port = none then
          { ho with port := some (if strStartsWith reqURL.protocol "https" then 443 else 80) }
        else ho
      let ho := match options.method with
                | some m => if m ≠ "" then { ho with method := m } else ho
                | none => ho
      let ho := match options.headers with
                | some hs => { ho with headers := assignHeaders ho.headers hs }
                | none => ho
      let ho := match options.ca with
                | some c => if c ≠ "" then { ho with ca := some c } else ho
                | none => ho
      .ok { a with httpOptions := ho }

/--
```js
RequestAgent.prototype.update = function(oldURL, newURL) {
    this.httpOptions.hostname = newURL.hostname;
    this.httpOptions.port = newURL.port;
    this.httpOptions.path = normalize(`${newURL.pathname}${newURL.search}`);
    this.httpOptions.protocol = newURL.protocol;
    this.httpOptions.port = newURL.port;
    if (!newURL.port) { ... default 443/80 ... }
    if ((oldURL.protocol !== newURL.protocol) ||
            (oldURL.hostname !== newURL.hostname)) {
        ... re-resolve the agent (or `false` when newAgent) and this.http ...
    }
};
```
`newURL.port` is the URL's port string; it is stored as the numeric port
value (`${port}` stringifies identically either way) and `!newURL.port`
is the empty-string test triggering the scheme-default port.
`updatedHttpOptions` is the block of `this.httpOptions` field rewrites at
the top of `update` (everything before the agent re-resolution). -/
def updatedHttpOptions (ho : HttpOptions) (newURL : URLRec) : HttpOptions :=
  let ho := { ho with
    hostname := some newURL.hostname,
    port := digitsToNat? newURL.port.data,
    path := some (normalize (newURL.pathname ++ newURL.search)),
    protocol := some newURL.protocol }
  if newURL.port = "" then
    { ho with port := some (if strStartsWith newURL.protocol "https" then 443 else 80) }
  else ho

def update (a : RequestAgent) (pool : AgentPool) (oldURL newURL : URLRec) :
    RequestAgent × AgentPool :=
  let ho := updatedHttpOptions a.httpOptions newURL
  if oldURL.protocol ≠ newURL.protocol ∨ oldURL.hostname ≠ newURL.hostname then
    if strStartsWith newURL.protocol "https" then
      if a.newAgent then
        ({ a with httpOptions := { ho with agent := .noAgent }, http := some .https }, pool)
      else
        (RequestAgent.mk (some .https)
           { ho with agent := (getOrCreateHTTPSAgent a.agentOptions ho pool).1 }
           a.agentOptions a.followRedirects a.maxRedirects a.newAgent,
         (getOrCreateHTTPSAgent a.agentOptions ho pool).2)
    else
      if a.newAgent then
        ({ a with httpOptions := { ho with agent := .noAgent }, http := some .http }, pool)
      else
        (RequestAgent.mk (some .http)
           { ho with agent := (getOrCreateHTTPAgent a.agentOptions ho pool).1 }
           a.agentOptions a.followRedirects a.maxRedirects a.newAgent,
         (getOrCreateHTTPAgent a.agentOptions ho pool).2)
  else
    ({ a with httpOptions := ho }, pool)

/--
```js
function create(uri, options = {}) {
    if (!isObject(options)) { throw new RequestAgentError('options parameter must be an object'); }
    if (uri.startsWith('http')) {
        const agent = new RequestAgent();
        agent.setOptions(options).setHTTPOptions(uri, options).setAgentOptions(options);
        if (agent.httpOptions.protocol.startsWith('https')) {
            if (!agent.newAgent) { agent.httpOptions.agent = getOrCreateHTTPSAgent(...); }
            agent.http = https;
        } else { ... http ... }
        return agent;
    } else { throw new RequestAgentError('Unsupported protocol'); }
}
```
The `isObject(options)` guard is carried by the `Options` type of this
embedding (a non-object argument throws before anything else happens and
is not otherwise observable). -/
def create (uri : String) (options : Options) (pool : AgentPool) :
    Except AgentError (RequestAgent × AgentPool) :=
  if strStartsWith uri "http" then
    let a : RequestAgent := {}
    let a := setOptions a options
    match setHTTPOptions a uri options with
    | .error e => .error e
    | .ok a =>
        let a := setAgentOptions a options
        if strStartsWith (jsStrOpt a.httpOptions.protocol) "https" then
          if a.newAgent then
            .ok ({ a with http := some .https }, pool)
          else
            let (ag, pool') := getOrCreateHTTPSAgent a.agentOptions a.httpOptions pool
            .ok ({ a with httpOptions := { a.httpOptions with agent := ag },
                          http := some .https }, pool')
        else
          if a.newAgent then
            .ok ({ a with http := some .http }, pool)
          else
            let (ag, pool') := getOrCreateHTTPAgent a.agentOptions a.httpOptions pool
            .ok ({ a with httpOptions := { a.httpOptions with agent := ag },
                          http := some .http }, pool')
  else .error .unsupportedProtocol

/-! ## Response classification (`index.js`, async variant, `handleResponse`) -/

/-- Which response class `handleResponse` instantiates:
`HTTPResponse` (success), `HTTPRedirect`, or `HTTPError`. -/
inductive RespKind where
  | response
  | redirect
  | error
deriving DecidableEq, Repr

/-- The value `handleResponse` settles its promise with: the class that
was instantiated plus the fields it assigns afterwards (`statusCode`,
`statusMessage`, `headers`; streamed `body`/`rawHeaders`/`httpVersion`
carry no claim-relevant structure and are omitted). `location` is set
only on the redirect branch, from `response.headers.location`. -/
structure ClassifiedResp where
  kind : RespKind
  statusCode : Int
  statusMessage : String
  location : Option String := none
  headers : List (String × String) := []
deriving DecidableEq, Repr

/--
```js
output.on('end', () => {
    const status = response.statusCode;
    if (status >= 200 && status < 300) {
        result = new HTTPResponse('OK');
    } else if (status >= 300 && status <= 310) {
        result = new HTTPRedirect('Redirect');
        result.location = response.headers.location;
    } else {
        result = new HTTPError('HTTP error');
    }
    result.statusCode = response.statusCode;
    ...
    result.statusMessage = response.statusMessage || 'unknown';
    result.headers = response.headers;
    result.body = Buffer.concat(data);
    if (result instanceof HTTPError) { reject(result); return; }
    resolve(result);
});
```
Inputs are the response's status code, its (node-lowercased) header map
and its reason phrase. -/
def handleResponse (status : Int) (headers : List (String × String))
    (statusMessage : String := "") : ClassifiedResp :=
  let result : ClassifiedResp :=
    if status ≥ 200 ∧ status < 300 then
      { kind := .response, statusCode := 200, statusMessage := "" }
    else if status ≥ 300 ∧ status ≤ 310 then
      { kind := .redirect, statusCode := 301, statusMessage := "",
        location := headers.lookup "location" }
    else
      { kind := .error, statusCode := 0, statusMessage := "" }
  { result with
    statusCode := status,
    statusMessage := if statusMessage = "" then "unknown" else statusMessage,
    headers := headers }

/-- `handleResponse` rejects exactly when it built an `HTTPError`. -/
def handleRejects (r : ClassifiedResp) : Bool := r.kind = .error

/-! ## The redirect driver (`index.js`, async variant, `get`/`_inner`) -/

/-- `hasHeader(value, headers)`:
`Object.prototype.hasOwnProperty.call(headers, value.toLowerCase())`. -/
def hasHeader (value : String) (headers : List (String × String)) : Bool :=
  headers.any (fun p => p.1 = toLowerStr value)

/-- One scripted wire response: what the transport hands to
`handleResponse` for one issued request. -/
structure SResp where
  status : Int
  headers : List (String × String) := []
deriving DecidableEq, Repr

/-- How the promise returned by `_inner` settles. `rejectedMaxRedirects`
is the `HTTPError` built as `new HTTPError(500)` with message
`'Maximum number of redirects reached'`; `rejectedClassifiedError` is
the `HTTPError` the awaited `_request` rejected with;
`resolvedUndefined` is the async function falling off the end of the
redirect branch and resolving with `undefined`; `noResponse` marks a
script too short for the run (the request would go out to a real
server). -/
inductive GetOutcome where
  | resolvedResponse (statusCode : Int)
  | resolvedRedirect (statusCode : Int) (location : Option String)
  | resolvedUndefined
  | rejectedClassifiedError (statusCode : Int)
  | rejectedMaxRedirects
  | rejectedOther
  | noResponse
deriving DecidableEq, Repr

/--
```js
async function _inner(url, reqAgent, followed = 0) {
    let error;
    const follow = reqAgent.followRedirects;
    const maxFollows = reqAgent.maxRedirects;
    if (follow) {
        const resp = await _request({...});
        if (resp instanceof HTTPRedirect) {
            if (followed >= maxFollows) {
                error = new HTTPError(500);
                error.message = 'Maximum number of redirects reached';
                return Future.reject(error);
            }
            if (hasHeader('location', resp.headers)) {
                const [oldUrl, newUrl] = reqAgent.toURLs(url, resp.headers.location);
                reqAgent.update(oldUrl, newUrl);
                return _inner(newUrl, reqAgent, followed + 1);
            }
        } else if (resp instanceof HTTPResponse) {
            return Future.resolve(resp);
        } else {
            return Future.reject(resp);
        }
    } else {
        return _request({...});
    }
}
```
The run is driven by the script of wire responses; each consumed entry
is one issued request. `followRedirects`/`maxRedirects` are read from
the agent but never written by `update`, so they are plain parameters
here; `update`'s effect on the agent does not influence the control
flow of the loop. When the awaited `_request` rejects (`handleResponse`
built an `HTTPError`), the `await` throws and `_inner`'s promise rejects
with that error. Returns the settlement and the number of requests
issued. -/
def innerGet (follow : Bool) (maxFollows : ℚ) :
    List SResp → Nat → GetOutcome × Nat
  | [], _ => (.noResponse, 0)
  | r :: rest, followed =>
      let resp := handleResponse r.status r.headers
      if follow then
        if handleRejects resp then (.rejectedClassifiedError resp.statusCode, 1)
        else if resp.kind = .redirect then
          if (followed : ℚ) ≥ maxFollows then (.rejectedMaxRedirects, 1)
          else if hasHeader "location" r.headers then
            ((innerGet follow maxFollows rest (followed + 1)).1,
             (innerGet follow maxFollows rest (followed + 1)).2 + 1)
          else (.resolvedUndefined, 1)
        else if resp.kind = .response then (.resolvedResponse resp.statusCode, 1)
        else (.rejectedOther, 1)
      else
        if handleRejects resp then (.rejectedClassifiedError resp.statusCode, 1)
        else if resp.kind = .redirect then
          (.resolvedRedirect resp.statusCode resp.location, 1)
        else (.resolvedResponse resp.statusCode, 1)

/-! ## Response-object headers accessor (`lib/response.js`, `lib/errors.js`)

```js
Object.defineProperty(HTTPResponse.prototype, 'headers', {
    get: function() { return this._headers; },
    set: function(val) {
        if (isNull(val) || val.constructor === Object) {
            this._headers = val;
        } else {
            throw TypeError('Headers must be an object');
        }
    }, ...
});
```
`lib/errors.js` installs the same accessor on `HTTPError.prototype`
(with `val == null` in place of `isNull(val)` — the same predicate).
`HTTPRedirect` inherits it from `HTTPResponse`. -/

/-- The stored `_headers` slot is well-formed when it is null/undefined
or a plain object. -/
def headersOk (v : JSVal) : Bool := isNull v || constructorIsObject v

/-- Assigning `val` to the `headers` property of a response or error
object whose `_headers` slot holds `cur`: the setter either stores `val`
or throws `TypeError('Headers must be an object')` before any write, in
which case the slot keeps its previous value. Returns the new slot value
and the thrown message, if any. -/
def headersSet (cur val : JSVal) : JSVal × Option String :=
  if isNull val || constructorIsObject val then (val, none)
  else (cur, some "Headers must be an object")

/-- `_headers` starts out `undefined`: the `HTTPResponse`/`HTTPRedirect`
constructors never write the property, and the `HTTPError` constructor
runs `this.headers = undefined` through the setter. -/
def initialHeaders : JSVal := .undefined

/-! ## Claims -/

/-- C1. The pool key never contains the request's hostname:
`optionsToHash` reads `httpOptions.host`, which `setHTTPOptions` never
sets (it sets `hostname`), so it always stringifies as `"undefined"`.
Two `create` calls for `https://localhost` and
`https://example.net/foo/bar` — equal scheme and (default) port,
different hostnames — therefore receive the reference-identical pooled
agent (id 0 of the pool), contradicting the claim that profiles
differing in hostname hold distinct pooled handles. -/
theorem c1_pool_key_ignores_hostname :
    ((create "https://localhost" {} {}).toOption.bind (fun x =>
      (create "https://example.net/foo/bar" {} x.2).toOption.map (fun y =>
        (x.1.httpOptions.hostname == y.1.httpOptions.hostname,
         x.1.httpOptions.agent == AgentVal.pooled 0,
         y.1.httpOptions.agent == AgentVal.pooled 0)))) =
      some (false, true, true) := by
  decide

/-- C2. The fingerprint ignores the pool options entirely: the
`reduce(toHashStr, toHash)` result is discarded, so for every two option
objects (equal or not) the fingerprint over the same host, port and
scheme is identical. In particular two calls with distinct pool-option
values (`keepAlive: true` vs `keepAlive: false`) over
`localhost:443/https` collide, contradicting the claim that distinct
pool-option values yield distinct fingerprints. -/
theorem c2_fingerprint_ignores_pool_options :
    (∀ (o1 o2 : AgentOptions) (ho : HttpOptions) (p : String),
        optionsToHash o1 ho p = optionsToHash o2 ho p) ∧
    optionsToHash { keepAlive := .bool true }
        { host := some "localhost", port := some 443 } "https" =
      optionsToHash { keepAlive := .bool false }
        { host := some "localhost", port := some 443 } "https" ∧
    (({ keepAlive := .bool true } : AgentOptions) ==
       ({ keepAlive := .bool false } : AgentOptions)) = false := by
  refine ⟨fun o1 o2 ho p => rfl, rfl, by decide⟩

/-- C3 (counterexample). Status 300 is classified as a Redirect by
`handleResponse` (`status >= 300 && status <= 310`), not as a Failure as
the claim states. -/
theorem c3_status_300_classified_redirect :
    (handleResponse 300 [("location", "/next")]).kind = RespKind.redirect ∧
    (RespKind.redirect == RespKind.error) = false := by
  decide

/-- C3 (amended). `handleResponse` classifies by status code as:
`[200,300)` → Success; `[300,310]` → Redirect (capturing the `location`
header), with 300 included; everything else (below 200 or above 310) →
Failure, and exactly the Failure outcomes are rejected. -/
theorem c3_classification_ranges (status : Int) (headers : List (String × String))
    (statusMessage : String) :
    (200 ≤ status ∧ status < 300 →
       (handleResponse status headers statusMessage).kind = RespKind.response) ∧
    (300 ≤ status ∧ status ≤ 310 →
       (handleResponse status headers statusMessage).kind = RespKind.redirect ∧
       (handleResponse status headers statusMessage).location = headers.lookup "location") ∧
    ((status < 200 ∨ 310 < status) →
       (handleResponse status headers statusMessage).kind = RespKind.error) ∧
    (handleRejects (handleResponse status headers statusMessage) = true ↔
       (handleResponse status headers statusMessage).kind = RespKind.error) := by
  simp only [handleResponse, handleRejects]
  split_ifs with h1 h2 <;>
    simp_all <;> omega

/-- C3 (amended) witness: concrete statuses in each band. -/
theorem c3_classification_ranges_witness :
    (handleResponse 204 [] "No Content").kind = RespKind.response ∧
    (handleResponse 301 [("location", "/n")] "Moved").kind = RespKind.redirect ∧
    (handleResponse 404 [] "Not Found").kind = RespKind.error := by
  refine ⟨(c3_classification_ranges 204 [] "No Content").1 (by decide),
          ((c3_classification_ranges 301 [("location", "/n")] "Moved").2.1 (by decide)).1,
          (c3_classification_ranges 404 [] "Not Found").2.2.1 (by decide)⟩

/-- C5. A redirect response with hop budget remaining but no `location`
header makes `_inner` fall through its redirect branch (there is no
`else` after the `hasHeader` check), so the async function returns — and
its promise resolves — with `undefined` after exactly one request. The
claim (and the previous revision of `_innerget`, which rejected with
`'Cannot follow redirect: missing Location header'`) say the promise is
rejected with a missing-Location error. -/
theorem c5_missing_location_resolves_undefined :
    innerGet true 5 [{ status := 301, headers := [("content-type", "text/plain")] }] 0 =
      (.resolvedUndefined, 1) := by
  decide

/-- C7 (counterexample). `maxRedirects: null` is a non-numeric value,
but `Number(null)` is `0`, not `NaN`, so `setOptions` stores `0` rather
than leaving the default 5. -/
theorem c7_null_maxredirects_stores_zero :
    (setOptions {} { maxRedirects := JSVal.null }).maxRedirects = 0 ∧
    ((0 : ℚ) == (5 : ℚ)) = false := by
  constructor
  · rfl
  · decide

/-- C7 (amended). `setOptions` keeps the default `maxRedirects` of 5
exactly when the supplied value is absent or coerces to `NaN` under JS
`Number()`; a value coercing to a number `q ≥ 15` (such as 20) is stored
as exactly 15; and the stored value never exceeds 15. (A non-numeric
value that coerces to a number — e.g. `null`, which coerces to 0 — is
stored as that number, not as 5.) -/
theorem c7_maxredirects_clamp (options : Options) :
    (toNumber options.maxRedirects = none →
       (setOptions {} options).maxRedirects = 5) ∧
    (∀ q : ℚ, toNumber options.maxRedirects = some q → 15 ≤ q →
       (setOptions {} options).maxRedirects = 15) ∧
    (setOptions {} options).maxRedirects ≤ 15 := by
  refine ⟨?_, ?_, ?_⟩
  · intro h
    simp only [setOptions, MAX_REDIRECTS, h]
    split_ifs <;> rfl
  · intro q h hq
    simp only [setOptions, MAX_REDIRECTS, h]
    split_ifs <;> rfl
  · rcases h : toNumber options.maxRedirects with _ | q
    · simp only [setOptions, MAX_REDIRECTS, h]
      split_ifs <;> norm_num
    · by_cases hq : q ≥ 15
      · simp only [setOptions, MAX_REDIRECTS, h, if_pos hq]
        norm_num
      · have hlt : q ≤ 15 := le_of_lt (not_le.mp hq)
        simp only [setOptions, MAX_REDIRECTS, h, if_neg hq]
        exact hlt

/-- C7 (amended) witness: absent keeps 5; 20 clamps to 15. -/
theorem c7_maxredirects_clamp_witness :
    (setOptions {} { maxRedirects := JSVal.undefined }).maxRedirects = 5 ∧
    (setOptions {} { maxRedirects := JSVal.num 20 }).maxRedirects = 15 ∧
    (setOptions {} { maxRedirects := JSVal.num 20 }).maxRedirects ≤ 15 := by
  exact ⟨(c7_maxredirects_clamp { maxRedirects := JSVal.undefined }).1 rfl,
         (c7_maxredirects_clamp { maxRedirects := JSVal.num 20 }).2.1 20 rfl (by norm_num),
         (c7_maxredirects_clamp { maxRedirects := JSVal.num 20 }).2.2⟩

/-- C9. `setOptions` imposes no lower bound: every numeric value `q`
below 15 — including 0, negatives and non-integers — is stored exactly;
and a redirect-following GET whose profile has `maxRedirects ≤ 0`
rejects with the maximum-redirects error on the first redirect response,
issuing exactly one request and following no hop. -/
theorem c9_no_lower_bound :
    (∀ (options : Options) (q : ℚ), toNumber options.maxRedirects = some q → q < 15 →
       (setOptions {} options).maxRedirects = q) ∧
    (∀ (maxFollows : ℚ) (r : SResp) (rest : List SResp), maxFollows ≤ 0 →
       (handleResponse r.status r.headers).kind = RespKind.redirect →
       innerGet true maxFollows (r :: rest) 0 = (.rejectedMaxRedirects, 1)) := by
  constructor
  · intro options q h hlt
    simp only [setOptions, MAX_REDIRECTS, h]
    split_ifs with hf hge hge <;> simp_all <;> linarith
  · intro maxFollows r rest hle hk
    have hrej : handleRejects (handleResponse r.status r.headers) = false := by
      simp [handleRejects, hk]
    have hge : ((0 : ℚ)) ≥ maxFollows := hle
    simp [innerGet, hrej, hk, Nat.cast_zero, hge]

/-- C9 witness: `maxRedirects: -1/2` is stored exactly, and with a
non-positive budget the first redirect rejects immediately. -/
theorem c9_no_lower_bound_witness :
    (setOptions {} { maxRedirects := JSVal.num (-1/2) }).maxRedirects = -1/2 ∧
    innerGet true 0 [{ status := 302, headers := [("location", "/n")] }] 0 =
      (.rejectedMaxRedirects, 1) := by
  exact ⟨c9_no_lower_bound.1 { maxRedirects := JSVal.num (-1/2) } (-1/2) rfl (by norm_num),
         c9_no_lower_bound.2 0 { status := 302, headers := [("location", "/n")] } []
           (by norm_num) (by decide)⟩

/-- C10. The `headers` accessor of `HTTPResponse`/`HTTPRedirect`
(`lib/response.js`) and `HTTPError` (`lib/errors.js`) maintains the
invariant that the stored slot is null/undefined or a plain object: a
well-formed assignment stores the value and returns normally, any other
value makes the setter throw `TypeError('Headers must be an object')`
with the slot unchanged; the slot starts out `undefined`, which is
well-formed. -/
theorem c10_headers_invariant (cur val : JSVal) (h : headersOk cur = true) :
    headersOk (headersSet cur val).1 = true ∧
    (headersOk val = false →
       (headersSet cur val).1 = cur ∧
       (headersSet cur val).2 = some "Headers must be an object") ∧
    (headersOk val = true →
       (headersSet cur val).1 = val ∧ (headersSet cur val).2 = none) ∧
    headersOk initialHeaders = true := by
  refine ⟨?_, ?_, ?_, rfl⟩
  · simp only [headersSet]
    split_ifs with hc
    · simpa [headersOk] using hc
    · simpa [headersOk] using h
  · intro hf
    have hc : (isNull val || constructorIsObject val) = false := by
      simpa [headersOk] using hf
    simp [headersSet, hc]
  · intro ht
    have hc : (isNull val || constructorIsObject val) = true := by
      simpa [headersOk] using ht
    simp [headersSet, hc]

/-- C10 witness: a plain-object slot survives an attempted array
assignment, which throws. -/
theorem c10_headers_invariant_witness :
    headersOk (headersSet JSVal.obj JSVal.arr).1 = true ∧
    (headersSet JSVal.obj JSVal.arr).1 = JSVal.obj ∧
    (headersSet JSVal.obj JSVal.arr).2 = some "Headers must be an object" := by
  have h := c10_headers_invariant JSVal.obj JSVal.arr (by decide)
  exact ⟨h.1, (h.2.1 (by decide)).1, (h.2.1 (by decide)).2⟩

/-- The redirect loop's request count is bounded: starting from hop
count `followed`, at most `m + 1 - min followed m` requests go out,
because each recursion step requires `followed < maxRedirects`. -/
theorem innerGet_count_le (m : ℕ) (script : List SResp) :
    ∀ followed : ℕ, (innerGet true (m : ℚ) script followed).2 + min followed m ≤ m + 1 := by
  induction script with
  | nil =>
      intro f
      simp only [innerGet]
      omega
  | cons r rest ih =>
      intro f
      by_cases h1 : handleRejects (handleResponse r.status r.headers) = true
      · simp [innerGet, h1]
        omega
      · by_cases h2 : (handleResponse r.status r.headers).kind = RespKind.redirect
        · by_cases h3 : ((f : ℚ) ≥ (m : ℚ))
          · simp [innerGet, h1, h2, h3]
            omega
          · have hfm : f < m := by exact_mod_cast not_le.mp h3
            by_cases h4 : hasHeader "location" r.headers = true
            · have hrec := ih (f + 1)
              simp only [innerGet, h1, h2, h3, h4, if_true, if_false,
                         Bool.false_eq_true, if_neg, ite_true, ite_false]
              simp [h1, h2, h3, h4]
              omega
            · simp [innerGet, h1, h2, h3, h4]
              omega
        · simp only [innerGet, h1, h2]
          split_ifs <;> simp <;> omega

/-- C4. With redirect-following on and an integer hop ceiling `m`:
(1) when the hop count has reached `maxRedirects` and the next response
classifies as a redirect, the call rejects with the
`'Maximum number of redirects reached'` error after that single request;
(2) a run started at hop count 0 never issues more than `m + 1` requests
— no request is issued beyond the hop ceiling. -/
theorem c4_redirect_hop_ceiling (m : ℕ) :
    (∀ (r : SResp) (rest : List SResp) (followed : ℕ),
        (handleResponse r.status r.headers).kind = RespKind.redirect →
        m ≤ followed →
        innerGet true (m : ℚ) (r :: rest) followed = (.rejectedMaxRedirects, 1)) ∧
    (∀ script : List SResp, (innerGet true (m : ℚ) script 0).2 ≤ m + 1) := by
  constructor
  · intro r rest followed hk hle
    have h1 : handleRejects (handleResponse r.status r.headers) = false := by
      simp [handleRejects, hk]
    have hge : ((followed : ℚ) ≥ (m : ℚ)) := by exact_mod_cast hle
    simp [innerGet, h1, hk, hge]
  · intro script
    have h := innerGet_count_le m script 0
    omega

/-- C4 witness: ceiling 1, hop count already 1, next response a
redirect: immediate rejection; and a script of three redirects issues at
most 2 requests. -/
theorem c4_redirect_hop_ceiling_witness :
    innerGet true ((1 : ℕ) : ℚ) [{ status := 301, headers := [("location", "/a")] }] 1 =
      (.rejectedMaxRedirects, 1) ∧
    (innerGet true ((1 : ℕ) : ℚ)
        [{ status := 301, headers := [("location", "/a")] },
         { status := 301, headers := [("location", "/b")] },
         { status := 301, headers := [("location", "/c")] }] 0).2 ≤ 1 + 1 := by
  exact ⟨(c4_redirect_hop_ceiling 1).1 { status := 301, headers := [("location", "/a")] } [] 1
           (by decide) (by norm_num),
         (c4_redirect_hop_ceiling 1).2 _⟩

/-- C6. `update`: (frame) the field-rewrite block touches only
`hostname`, `port`, `path` and `protocol` — `agent`, `method`,
`headers`, `host` and `ca` are untouched; (same-origin) when scheme and
hostname are unchanged, the profile keeps its pooled agent handle — the
whole update is the field rewrites, and the pool is untouched;
(cross-origin) when scheme or hostname changed, the handle becomes the
one looked up or created in the pool for the rewritten options (per the
target's scheme), or `false` when `newAgent` is set. -/
theorem c6_update_agent_frame (a : RequestAgent) (pool : AgentPool) (oldURL newURL : URLRec) :
    ((updatedHttpOptions a.httpOptions newURL).agent = a.httpOptions.agent ∧
     (updatedHttpOptions a.httpOptions newURL).method = a.httpOptions.method ∧
     (updatedHttpOptions a.httpOptions newURL).headers = a.httpOptions.headers ∧
     (updatedHttpOptions a.httpOptions newURL).host = a.httpOptions.host ∧
     (updatedHttpOptions a.httpOptions newURL).ca = a.httpOptions.ca) ∧
    (oldURL.protocol = newURL.protocol → oldURL.hostname = newURL.hostname →
       update a pool oldURL newURL =
         ({ a with httpOptions := updatedHttpOptions a.httpOptions newURL }, pool)) ∧
    ((oldURL.protocol ≠ newURL.protocol ∨ oldURL.hostname ≠ newURL.hostname) →
       (a.newAgent = true →
          (update a pool oldURL newURL).1.httpOptions.agent = AgentVal.noAgent ∧
          (update a pool oldURL newURL).2 = pool) ∧
       (a.newAgent = false → strStartsWith newURL.protocol "https" = true →
          (update a pool oldURL newURL).1.httpOptions.agent =
            (getOrCreateHTTPSAgent a.agentOptions (updatedHttpOptions a.httpOptions newURL) pool).1 ∧
          (update a pool oldURL newURL).2 =
            (getOrCreateHTTPSAgent a.agentOptions (updatedHttpOptions a.httpOptions newURL) pool).2) ∧
       (a.newAgent = false → strStartsWith newURL.protocol "https" = false →
          (update a pool oldURL newURL).1.httpOptions.agent =
            (getOrCreateHTTPAgent a.agentOptions (updatedHttpOptions a.httpOptions newURL) pool).1 ∧
          (update a pool oldURL newURL).2 =
            (getOrCreateHTTPAgent a.agentOptions (updatedHttpOptions a.httpOptions newURL) pool).2)) := by
  refine ⟨?_, ?_, ?_⟩
  · simp only [updatedHttpOptions]
    split_ifs <;> exact ⟨rfl, rfl, rfl, rfl, rfl⟩
  · intro h1 h2
    have hc : ¬(oldURL.protocol ≠ newURL.protocol ∨ oldURL.hostname ≠ newURL.hostname) := by
      simp [h1, h2]
    simp only [update, if_neg hc]
  · intro hc
    refine ⟨?_, ?_, ?_⟩
    · intro hna
      simp [update, if_pos hc, hna]
      split_ifs <;> exact ⟨rfl, rfl⟩
    · intro hna hhttps
      simp only [update, if_pos hc, hna, hhttps]
      exact ⟨rfl, rfl⟩
    · intro hna hhttps
      simp only [update, if_pos hc, hna, hhttps]
      exact ⟨rfl, rfl⟩

/-- C6 witness: a same-origin redirect
(`https://h/foo/` → `https://h/bar/`) keeps the pooled handle (id 7);
a cross-origin redirect (`https://h/foo/` → `http://other/foo`) takes
the handle resolved from the pool for the new target. -/
theorem c6_update_agent_frame_witness :
    (update
        { httpOptions := { agent := AgentVal.pooled 7, hostname := some "h",
                           protocol := some "https:" } }
        { entries := [("k", 3)], nextId := 4 }
        { protocol := "https:", hostname := "h", pathname := "/foo/" }
        { protocol := "https:", hostname := "h", pathname := "/bar/" }).1.httpOptions.agent =
      AgentVal.pooled 7 ∧
    (update
        { httpOptions := { agent := AgentVal.pooled 7, hostname := some "h",
                           protocol := some "https:" } }
        { entries := [("k", 3)], nextId := 4 }
        { protocol := "https:", hostname := "h", pathname := "/foo/" }
        { protocol := "http:", hostname := "other", pathname := "/foo" }).1.httpOptions.agent =
      (getOrCreateHTTPAgent
        ({ httpOptions := { agent := AgentVal.pooled 7, hostname := some "h",
                            protocol := some "https:" } } : RequestAgent).agentOptions
        (updatedHttpOptions
          ({ httpOptions := { agent := AgentVal.pooled 7, hostname := some "h",
                              protocol := some "https:" } } : RequestAgent).httpOptions
          { protocol := "http:", hostname := "other", pathname := "/foo" })
        { entries := [("k", 3)], nextId := 4 }).1 := by
  constructor
  · have h := (c6_update_agent_frame
      { httpOptions := { agent := AgentVal.pooled 7, hostname := some "h",
                         protocol := some "https:" } }
      { entries := [("k", 3)], nextId := 4 }
      { protocol := "https:", hostname := "h", pathname := "/foo/" }
      { protocol := "https:", hostname := "h", pathname := "/bar/" }).2.1 rfl rfl
    rw [h]
    decide
  · have h := (c6_update_agent_frame
      { httpOptions := { agent := AgentVal.pooled 7, hostname := some "h",
                         protocol := some "https:" } }
      { entries := [("k", 3)], nextId := 4 }
      { protocol := "https:", hostname := "h", pathname := "/foo/" }
      { protocol := "http:", hostname := "other", pathname := "/foo" }).2.2
      (Or.inl (by decide))
    exact (h.2.2 rfl (by decide)).1

/-- `collapseSpec` keeps the head character of a nonempty list. -/
theorem collapseSpec_cons_head (c : Char) (t : List Char) :
    ∃ r, collapseSpec (c :: t) = c :: r := by
  induction t generalizing c with
  | nil => exact ⟨[], rfl⟩
  | cons b t ih =>
      by_cases h : c = '/' ∧ b = '/'
      · obtain ⟨hc, hb⟩ := h
        subst hc
        subst hb
        obtain ⟨r, hr⟩ := ih '/'
        exact ⟨r, by simpa [collapseSpec] using hr⟩
      · exact ⟨collapseSpec (b :: t), by simp only [collapseSpec, if_neg h]⟩

/-- The output of `collapseSpec` has no two adjacent slashes. -/
theorem collapseSpec_chain' (l : List Char) :
    List.Chain' (fun a b => ¬(a = '/' ∧ b = '/')) (collapseSpec l) := by
  induction l with
  | nil => simp [collapseSpec]
  | cons c t ih =>
      cases t with
      | nil => simp [collapseSpec]
      | cons b t' =>
          by_cases h : c = '/' ∧ b = '/'
          · simpa [collapseSpec, if_pos h] using ih
          · obtain ⟨r, hr⟩ := collapseSpec_cons_head b t'
            have he : collapseSpec (c :: b :: t') = c :: collapseSpec (b :: t') := by
              simp only [collapseSpec, if_neg h]
            rw [he, hr]
            rw [hr] at ih
            exact List.chain'_cons.mpr ⟨h, ih⟩

/-- A list with no two adjacent slashes is a fixed point of
`collapseSpec`. -/
theorem collapseSpec_of_chain' (l : List Char)
    (h : List.Chain' (fun a b => ¬(a = '/' ∧ b = '/')) l) : collapseSpec l = l := by
  induction l with
  | nil => rfl
  | cons c t ih =>
      cases t with
      | nil => rfl
      | cons b t' =>
          rw [List.chain'_cons] at h
          simp only [collapseSpec, if_neg h.1]
          rw [ih h.2]

/-- A slash-free list has no two adjacent slashes. -/
theorem chain'_of_slashFree (l : List Char) (h : ∀ c ∈ l, c ≠ '/') :
    List.Chain' (fun a b => ¬(a = '/' ∧ b = '/')) l := by
  induction l with
  | nil => simp
  | cons c t ih =>
      cases t with
      | nil => simp
      | cons b t' =>
          rw [List.chain'_cons]
          exact ⟨fun hcb => (h c (by simp)) hcb.1,
                 ih (fun x hx => h x (List.mem_cons_of_mem _ hx))⟩

/-- The source `collapse` computes exactly the specification-side
`collapseSpec`: every maximal slash run becomes one slash and everything
else is untouched. -/
theorem collapse_eq_collapseSpec (l : List Char) : collapse l = collapseSpec l := by
  have key : ∀ (n : ℕ) (l : List Char), l.length ≤ n → collapse l = collapseSpec l := by
    intro n
    induction n with
    | zero =>
        intro l h
        have : l = [] := List.length_eq_zero.mp (Nat.le_zero.mp h)
        subst this
        simp [collapse, collapseSpec]
    | succ n ih =>
        intro l h
        rcases l with _ | ⟨a, _ | ⟨b, t⟩⟩
        · simp [collapse, collapseSpec]
        · by_cases hc : a = '/'
          · subst hc
            simp [collapse, collapseSpec, dropSlashes]
          · simp [collapse, collapseSpec, hc]
        · have hbt : (b :: t).length ≤ n := by
            simp only [List.length_cons] at h ⊢
            omega
          by_cases ha : a = '/'
          · by_cases hb : b = '/'
            · subst ha
              subst hb
              have e1 : collapse ('/' :: '/' :: t) = '/' :: collapse (dropSlashes t) := by
                simp [collapse, dropSlashes]
              have e2 : collapse ('/' :: t) = '/' :: collapse (dropSlashes t) := by
                simp [collapse]
              have e3 : collapseSpec ('/' :: '/' :: t) = collapseSpec ('/' :: t) := by
                simp [collapseSpec]
              rw [e1, e3, ← ih ('/' :: t) hbt, e2]
            · subst ha
              have e1 : dropSlashes (b :: t) = b :: t := by simp [dropSlashes, hb]
              calc collapse ('/' :: b :: t) = '/' :: collapse (b :: t) := by
                    simp [collapse, e1]
                _ = '/' :: collapseSpec (b :: t) := by rw [ih _ hbt]
                _ = collapseSpec ('/' :: b :: t) := by simp [collapseSpec, hb]
          · calc collapse (a :: b :: t) = a :: collapse (b :: t) := by simp [collapse, ha]
              _ = a :: collapseSpec (b :: t) := by rw [ih _ hbt]
              _ = collapseSpec (a :: b :: t) := by simp [collapseSpec, ha]
  exact key l.length l le_rfl

/-- C8. The path normalizer is total on strings (all parts below are
universally quantified over arbitrary strings/character lists), it is
idempotent, it computes `collapseSpec` — replacing every maximal run of
slashes by a single slash and leaving every character outside such runs
unchanged — it fixes every slash-free list, and
`normalize "/foo//bar///baz/" = "/foo/bar/baz/"`. -/
theorem c8_normalize_properties :
    (∀ p : String, normalize (normalize p) = normalize p) ∧
    (∀ l : List Char, collapse l = collapseSpec l) ∧
    (∀ l : List Char, (∀ c ∈ l, c ≠ '/') → collapse l = l) ∧
    normalize "/foo//bar///baz/" = "/foo/bar/baz/" := by
  have hidem : ∀ l : List Char, collapse (collapse l) = collapse l := by
    intro l
    rw [collapse_eq_collapseSpec, collapse_eq_collapseSpec,
        collapseSpec_of_chain' _ (collapseSpec_chain' l)]
  refine ⟨?_, collapse_eq_collapseSpec, ?_, ?_⟩
  · intro p
    exact congrArg String.mk (hidem p.data)
  · intro l h
    rw [collapse_eq_collapseSpec, collapseSpec_of_chain' l (chain'_of_slashFree l h)]
  · show String.mk (collapse "/foo//bar///baz/".data) = "/foo/bar/baz/"
    rw [collapse_eq_collapseSpec]
    decide

/-- C8 witness: idempotence, agreement with the specification function
and slash-free fixedness at concrete inputs, plus the concrete collapse
example. -/
theorem c8_normalize_properties_witness :
    normalize (normalize "/a//b") = normalize "/a//b" ∧
    collapse "ab/c".data = collapseSpec "ab/c".data ∧
    collapse "abc".data = "abc".data ∧
    normalize "/foo//bar///baz/" = "/foo/bar/baz/" := by
  exact ⟨c8_normalize_properties.1 "/a//b",
         c8_normalize_properties.2.1 "ab/c".data,
         c8_normalize_properties.2.2.1 "abc".data (by decide),
         c8_normalize_properties.2.2.2⟩

end RP
